import Mathlib

/-!
Verification development for the `tg_bot_schedule` repository.

The Lean definitions below are a shallow embedding of the decision logic of
`moodle/client.py` (attendance detection, form submission, login, result
cache), `simple_schedule_parser.py` (timetable loading and the class-time
gate) and `scheduler/tasks.py` (the periodic check gate).

HTML pages are modelled as trees of elements with attributes and text
nodes; the BeautifulSoup queries used by the source (`find`, `find_all`,
`get_text`, `.string`, attribute and regex filters, parent walking) are
embedded as pre-order traversals over this tree.  Network and filesystem
interaction is modelled by explicit environments holding the outcomes of
`requests.Session.get`/`post` and of reading the CSV file.  The regular
expressions used by the source are all of the form
`alt1|alt2|...` under `re.search`, i.e. case-(in)sensitive substring
tests, and are embedded as such.  String lowercasing uses an
ASCII-only character map; every marker string in the source is already
lower-case, so the embedding agrees with Python on all inputs used here.
-/

namespace TgBot

/-! ## String helpers -/

/-- Is `pre` a prefix of `l`? -/
def listIsPrefix : List Char → List Char → Bool
  | [], _ => true
  | _ :: _, [] => false
  | a :: as, b :: bs => a == b && listIsPrefix as bs

/-- Does `l` contain `needle` as a contiguous sublist (Python `in` on strings,
    `re.search` of a literal)? -/
def listHasInfix (needle : List Char) : List Char → Bool
  | [] => listIsPrefix needle []
  | c :: rest => listIsPrefix needle (c :: rest) || listHasInfix needle rest

/-- Python `needle in hay` for strings. -/
def strContains (hay needle : String) : Bool :=
  listHasInfix needle.data hay.data

/-- ASCII lower-casing of one character (Python `str.lower` restricted to
    ASCII; the embedding's marker strings are already lower-case). -/
def charToLower (c : Char) : Char :=
  if 'A' ≤ c && c ≤ 'Z' then Char.ofNat (c.toNat + 32) else c

/-- ASCII lower-casing of a string. -/
def strLower (s : String) : String :=
  ⟨s.data.map charToLower⟩

/-- Case-insensitive substring test (embedding of `re.search(..., re.I)` with a
    literal alternative; ASCII case folding). -/
def strContainsCI (hay needle : String) : Bool :=
  strContains (strLower hay) (strLower needle)

/-- Python `s.strip(chars)`: drop characters satisfying `p` from both ends. -/
def stripSet (p : Char → Bool) (s : String) : String :=
  ⟨(s.data.dropWhile p).reverse.dropWhile p |>.reverse⟩

/-- Python `s.strip(' "').strip()` as used on CSV cells. -/
def cleanCell (s : String) : String :=
  stripSet (fun c => c == ' ' || c == '\t' || c == '\n' || c == '\r')
    (stripSet (fun c => c == ' ' || c == '"') s)

/-- Truthiness of an optional string attribute (Python `if value:`). -/
def truthy : Option String → Bool
  | none => false
  | some s => s ≠ ""

/-- Keep an optional string only when truthy (`url = tag.get('href'); if url:`). -/
def truthyOpt : Option String → Option String
  | none => none
  | some s => if s = "" then none else some s

/-! ## HTML document model

A parsed page is a tree of element nodes (tag name, attribute list,
children) and text nodes, mirroring what BeautifulSoup exposes of the
fetched `response.text`. -/

inductive Html where
  | elem (name : String) (attrs : List (String × String)) (children : List Html)
  | txt (s : String)
deriving Repr

/-- First value of attribute `k` (BeautifulSoup `tag.get(k)`). -/
def getAttr (attrs : List (String × String)) (k : String) : Option String :=
  (attrs.find? (fun p => p.1 == k)).map (·.2)

/-- `tag.get(k)` on a node (`none` for a text node). -/
def Html.attr : Html → String → Option String
  | .elem _ attrs _, k => getAttr attrs k
  | .txt _, _ => none

/-- Tag name of a node (text nodes have no name). -/
def Html.tagName : Html → Option String
  | .elem n _ _ => some n
  | .txt _ => none

mutual

/-- First element node (pre-order) satisfying `p` — BeautifulSoup
    `soup.find(...)`; `p` is only ever tested on element nodes. -/
def findElem (p : Html → Bool) : Html → Option Html
  | .txt _ => none
  | .elem n a cs =>
    if p (.elem n a cs) then some (.elem n a cs) else findElemList p cs

/-- `findElem` over a child list, left to right. -/
def findElemList (p : Html → Bool) : List Html → Option Html
  | [] => none
  | h :: t =>
    match findElem p h with
    | some r => some r
    | none => findElemList p t

end

mutual

/-- All element nodes (pre-order) satisfying `p` — `soup.find_all(...)`. -/
def findElems (p : Html → Bool) : Html → List Html
  | .txt _ => []
  | .elem n a cs =>
    (if p (.elem n a cs) then [Html.elem n a cs] else []) ++ findElemsList p cs

/-- `findElems` over a child list. -/
def findElemsList (p : Html → Bool) : List Html → List Html
  | [] => []
  | h :: t => findElems p h ++ findElemsList p t

end

mutual

/-- First text node (pre-order) satisfying `p`, returned together with its
    chain of enclosing elements, nearest first — BeautifulSoup
    `soup.find(text=...)` followed by `.parent` walking. -/
def findText (p : String → Bool) (anc : List Html) :
    Html → Option (String × List Html)
  | .txt s => if p s then some (s, anc) else none
  | .elem n a cs => findTextList p (Html.elem n a cs :: anc) cs

/-- `findText` over a child list. -/
def findTextList (p : String → Bool) (anc : List Html) :
    List Html → Option (String × List Html)
  | [] => none
  | h :: t =>
    match findText p anc h with
    | some r => some r
    | none => findTextList p anc t

end

mutual

/-- Concatenated text content — BeautifulSoup `soup.get_text()`. -/
def getText : Html → String
  | .txt s => s
  | .elem _ _ cs => getTextList cs

/-- `getText` over a child list. -/
def getTextList : List Html → String
  | [] => ""
  | h :: t => getText h ++ getTextList t

end

/-- BeautifulSoup `tag.string`: the unique string below a chain of
    single-child tags, else `None`. -/
def nodeString : Html → Option String
  | .txt s => some s
  | .elem _ _ [c] => nodeString c
  | .elem _ _ _ => none

/-- `tag.find(...)` searches the tag's descendants (the tag itself excluded). -/
def findInDescendants (p : Html → Bool) : Html → Option Html
  | .txt _ => none
  | .elem _ _ cs => findElemList p cs

/-! ## Attendance detector (`MoodleClient.check_attendance`, moodle/client.py)

`check_attendance` returns Python dicts
`{'status': 'available', 'form_url': ...}`,
`{'status': 'available', 'form_action': ...}` (possibly `None`),
`{'status': 'available', 'button_found': True}`,
`{'status': 'not_available', ...}` or `{'status': 'error', 'message': ...}`;
these are embedded as a tagged type. -/

/-- The payload of an `'available'` detection result. -/
inductive Affordance where
  | formUrl (url : String)
  | formAction (action : Option String)
  | buttonFound
deriving Repr, DecidableEq

/-- A `check_attendance` result dict, by its `'status'` field. -/
inductive CheckResult where
  | available (a : Affordance)
  | notAvailable (message : String)
  | error (message : String)
deriving Repr, DecidableEq

/-- Is this an `{'status': 'error', ...}` result? -/
def CheckResult.isError : CheckResult → Bool
  | .error _ => true
  | _ => false

/-- `re.compile(r'отметиться|submit attendance', re.I)` under `re.search`. -/
def reAttendanceBtn (s : String) : Bool :=
  strContainsCI s "отметиться" || strContainsCI s "submit attendance"

/-- `re.compile(r'отметиться|mark attendance|submit attendance', re.I)`. -/
def reAttendanceLink (s : String) : Bool :=
  strContainsCI s "отметиться" || strContainsCI s "mark attendance" ||
    strContainsCI s "submit attendance"

/-- `re.compile(r'submit attendance|mark attendance|присутствие', re.I)`. -/
def reAttendanceText (s : String) : Bool :=
  strContainsCI s "submit attendance" || strContainsCI s "mark attendance" ||
    strContainsCI s "присутствие"

/-- Option 1: `soup.find('input', {'value': re.compile(r'отметиться|submit
    attendance', re.I)})`. -/
def findAttendanceBtn (page : Html) : Option Html :=
  findElem (fun node => node.tagName == some "input" &&
    (match node.attr "value" with
     | some v => reAttendanceBtn v
     | none => false)) page

/-- Option 2: loop over `soup.find_all('a', text="Submit attendance")`,
    returning the first `href` that is truthy and contains `attendance.php`. -/
def exactLinkScan (page : Html) : Option String :=
  (findElems (fun node => node.tagName == some "a" &&
      nodeString node == some "Submit attendance") page).findSome? fun l =>
    match l.attr "href" with
    | some u => if u ≠ "" && strContains u "attendance.php" then some u else none
    | none => none

/-- Option 3: `soup.find('a', text=re.compile(r'отметиться|mark attendance|
    submit attendance', re.I))`; a match with a falsy `href` falls through. -/
def regexLinkScan (page : Html) : Option String :=
  match findElem (fun node => node.tagName == some "a" &&
      (match nodeString node with
       | some s => reAttendanceLink s
       | none => false)) page with
  | some l => truthyOpt (l.attr "href")
  | none => none

/-- Option 4: `soup.find(text=re.compile(r'submit attendance|mark attendance|
    присутствие', re.I))`, then walk `.parent` up to the nearest `a` or `body`;
    yields the `href` only when that ancestor is an `a` with a truthy `href`. -/
def freeTextScan (page : Html) : Option String :=
  match findText reAttendanceText [] page with
  | none => none
  | some (_, anc) =>
    match anc.find? (fun n => n.tagName == some "a" || n.tagName == some "body") with
    | some parent =>
      if parent.tagName == some "a" then truthyOpt (parent.attr "href") else none
    | none => none

/-- Multi-valued `class` attribute matching: BeautifulSoup applies the regex to
    each whitespace-separated class token. -/
def classMatches (attrs : List (String × String)) (needle : String) : Bool :=
  match getAttr attrs "class" with
  | some c => (c.splitOn " ").any (fun tok => strContains tok needle)
  | none => false

/-- Option 5: `soup.find(['div', 'section'], {'class': re.compile(r'attendance')})`
    and, inside it, `attendance_section.find('form')`; a section without a form
    falls through. -/
def sectionScan (page : Html) : Option (Option String) :=
  match findElem (fun node => (node.tagName == some "div" ||
      node.tagName == some "section") &&
      (match node with
       | .elem _ a _ => classMatches a "attendance"
       | .txt _ => false)) page with
  | none => none
  | some sec =>
    match findInDescendants (fun node => node.tagName == some "form") sec with
    | some form => some (form.attr "action")
    | none => none

/-- The heuristic chain of `check_attendance` applied to a fetched 200 page
    (moodle/client.py lines 296–382).  Note the source's control flow: finding
    the submit-style button (Option 1) suppresses only Options 2 and 3 (the
    anchor scans are under `if not attendance_btn`); Options 4 and 5 run — and
    return — regardless, and the button result itself is only returned after
    Options 4 and 5 have failed. -/
def scanLessonPage (page : Html) : CheckResult :=
  let attendance_btn := findAttendanceBtn page
  match (if attendance_btn.isNone then exactLinkScan page else none) with
  | some u => .available (.formUrl u)
  | none =>
  match (if attendance_btn.isNone then regexLinkScan page else none) with
  | some u => .available (.formUrl u)
  | none =>
  match freeTextScan page with
  | some u => .available (.formUrl u)
  | none =>
  match sectionScan page with
  | some act => .available (.formAction act)
  | none =>
  if attendance_btn.isSome then .available .buttonFound
  else .notAvailable "No attendance marking option found"

/-! ## Result cache and `check_attendance` driver

`MoodleClient.__init__` sets `self.attendance_cache = {}` and
`self.cache_ttl = 300`.  The cache maps a lesson URL to the stored result
dict together with the `time.time()` of the write.  Dict insertion with an
existing key overwrites in place; this is embedded as an association list
with in-place update.  Time is embedded as `Int` seconds. -/

/-- `self.cache_ttl = 300` (seconds). -/
def cache_ttl : Int := 300

/-- The attendance cache: lesson URL ↦ (stored result, `last_checked`). -/
abbrev AttendanceCache := List (String × CheckResult × Int)

/-- Dict lookup (first binding; keys are unique under `cachePut`). -/
def cacheLookup (c : AttendanceCache) (url : String) : Option (CheckResult × Int) :=
  (c.find? (fun e => e.1 == url)).map (·.2)

/-- Dict insertion: overwrite the existing binding or append a new one. -/
def cachePut (c : AttendanceCache) (url : String) (v : CheckResult × Int) :
    AttendanceCache :=
  match c with
  | [] => [(url, v)]
  | e :: rest => if e.1 == url then (url, v) :: rest else e :: cachePut rest url v

/-- Mutable `MoodleClient` state relevant to `check_attendance`:
    `self.is_logged_in` and `self.attendance_cache`. -/
structure ClientState where
  isLoggedIn : Bool
  attendanceCache : AttendanceCache
deriving Repr, DecidableEq

/-- Outcome of one `requests.Session.get`/`post` call: a response with a
    status code and parsed body, or a raised exception with its message. -/
inductive FetchOutcome where
  | ok (status : Nat) (page : Html)
  | exn (msg : String)

/-- External world as seen by `check_attendance`: whether `self.login()`
    would succeed (its internals are verified separately) and the response
    each URL's GET produces. -/
structure CheckEnv where
  loginSucceeds : Bool
  fetch : String → FetchOutcome

/-- The body of `MoodleClient.check_attendance(lesson_url)` (moodle/client.py
    lines 285–386) run on a cache miss.  Returns the result dict, the updated
    client state, and the number of network operations performed (login
    attempts plus page GETs).

    Control flow of the source: log in if needed (failure: `error` without
    touching the cache), GET the lesson page (exception or non-200: `error`
    without touching the cache), scan it with the heuristic chain, and write
    the resulting `available`/`not_available` dict into the cache. -/
def check_attendance_fresh (env : CheckEnv) (st : ClientState) (now : Int)
    (lesson_url : String) : CheckResult × ClientState × Nat :=
  let (loginOk, st1, n1) :=
    if st.isLoggedIn then (true, st, 0)
    else (env.loginSucceeds, { st with isLoggedIn := env.loginSucceeds }, 1)
  if !loginOk then (.error "Not logged in", st1, n1)
  else
    match env.fetch lesson_url with
    | .exn msg => (.error msg, st1, n1 + 1)
    | .ok status page =>
      if status ≠ 200 then
        (.error ("Failed to load lesson page: " ++ toString status), st1, n1 + 1)
      else
        let res := scanLessonPage page
        (res, { st1 with
                attendanceCache := cachePut st1.attendanceCache lesson_url (res, now) },
         n1 + 1)

/-- `MoodleClient.check_attendance(lesson_url)`: the cache consult of lines
    278–283 in front of the fresh-check body. -/
def check_attendance (env : CheckEnv) (st : ClientState) (now : Int)
    (lesson_url : String) : CheckResult × ClientState × Nat :=
  match cacheLookup st.attendanceCache lesson_url with
  | some (res, last) =>
    if now - last < cache_ttl then (res, st, 0)
    else check_attendance_fresh env st now lesson_url
  | none => check_attendance_fresh env st now lesson_url

/-! ## Login (`MoodleClient.login`, moodle/client.py lines 65–112)

The two network calls of `login` (`GET LOGIN_URL`, `POST LOGIN_URL`) are
modelled individually so that a raised exception at either point can be
distinguished; the `try`/`except` of the source catches every exception and
returns `False`. -/

/-- External world of `login`: the login-page GET and the credential POST
    (which yields `login_response.url`). -/
structure LoginEnv where
  getLoginPage : Sum String Html
  postCredentials : Sum String String

/-- `MoodleClient.login()`.  Returns the boolean result and the number of
    network calls made.  Missing (or empty, Python-falsy) username or
    password returns `False` before any network activity; a missing login
    form or token input returns `False`; success is declared iff
    `'loginerrors'` does not occur in the post-login response URL; any raised
    exception is caught and converted to `False`. -/
def login (env : LoginEnv) (username password : Option String) : Bool × Nat :=
  if !truthy username || !truthy password then (false, 0)
  else
    match env.getLoginPage with
    | .inl _ => (false, 1)
    | .inr page =>
      match findElem (fun node => node.tagName == some "form" &&
          node.attr "id" == some "login") page with
      | none => (false, 1)
      | some login_form =>
        match findInDescendants (fun node => node.tagName == some "input" &&
            node.attr "name" == some "logintoken") login_form with
        | none => (false, 1)
        | some _ =>
          match env.postCredentials with
          | .inl _ => (false, 2)
          | .inr respUrl => (!strContains respUrl "loginerrors", 2)

/-! ## Form submitter (`MoodleClient.submit_attendance`, moodle/client.py
lines 388–490) -/

/-- `MOODLE_BASE_URL` from config.py. -/
def MOODLE_BASE_URL : String := "https://dl.nure.ua"

/-- A `submit_attendance` result dict: its `'status'` value (the source only
    ever produces `"success"` or `"error"`) and its `'message'`. -/
structure SubmitResult where
  status : String
  message : String
deriving Repr, DecidableEq

/-- `soup.find('form', {'id': 'studentsform'}) or soup.find('form',
    {'id': 'attendanceform'}) or soup.find('form')`. -/
def findAttendanceForm (page : Html) : Option Html :=
  match findElem (fun node => node.tagName == some "form" &&
      node.attr "id" == some "studentsform") page with
  | some f => some f
  | none =>
    match findElem (fun node => node.tagName == some "form" &&
        node.attr "id" == some "attendanceform") page with
    | some f => some f
    | none => findElem (fun node => node.tagName == some "form") page

/-- Ordered dict update: `form_data[name] = value` (overwrite in place, else
    append). -/
def dictPut (d : List (String × String)) (k v : String) : List (String × String) :=
  match d with
  | [] => [(k, v)]
  | e :: rest => if e.1 == k then (k, v) :: rest else e :: dictPut rest k v

/-- Dict lookup in an assembled payload. -/
def dictGet (d : List (String × String)) (k : String) : Option String :=
  (d.find? (fun e => e.1 == k)).map (·.2)

/-- `confirmation_texts` of the source. -/
def confirmation_texts : List String :=
  ["confirm", "подтвердить", "підтвердити", "отметиться", "відмітитися"]

/-- `soup.find('input', {'type': 'submit'}) or soup.find('button',
    {'type': 'submit'})`. -/
def findSubmitButton (page : Html) : Option Html :=
  match findElem (fun node => node.tagName == some "input" &&
      node.attr "type" == some "submit") page with
  | some b => some b
  | none => findElem (fun node => node.tagName == some "button" &&
      node.attr "type" == some "submit") page

/-- `soup.find('input', {'name': re.compile(r'status'), 'value': '1'}) or
    soup.find('input', {'type': 'radio', 'value': re.compile(r'1|present',
    re.I)})` — the "present option" probe.  Note: it matches on the `name`
    and `value` attributes only; label text is never consulted. -/
def findPresentInput (page : Html) : Option Html :=
  match findElem (fun node => node.tagName == some "input" &&
      (match node.attr "name" with
       | some s => strContains s "status"
       | none => false) &&
      node.attr "value" == some "1") page with
  | some i => some i
  | none =>
    findElem (fun node => node.tagName == some "input" &&
      node.attr "type" == some "radio" &&
      (match node.attr "value" with
       | some v => strContains v "1" || strContainsCI v "present"
       | none => false)) page

/-- Payload assembly of `submit_attendance` for a fetched form page:
    every named, valued `input` of the form in order (later duplicates —
    e.g. radios sharing a name — overwrite earlier ones); then, when the
    page text contains a confirmation phrase, the submit button's
    name/value; then the "present option" probe's name/value (both probes
    search the whole page, not just the form; `get('value', '1')` defaults a
    missing value attribute to `"1"`). -/
def assembleFormData (page form : Html) : List (String × String) :=
  let base := (findElems (fun node => node.tagName == some "input") form).foldl
    (fun d i =>
      match i.attr "name", i.attr "value" with
      | some n, some v => if n ≠ "" && v ≠ "" then dictPut d n v else d
      | _, _ => d) []
  let page_text := strLower (getText page)
  let withConfirm :=
    if confirmation_texts.any (fun t => strContains page_text t) then
      match findSubmitButton page with
      | some btn =>
        match btn.attr "name" with
        | some n =>
          if n ≠ "" then dictPut base n ((btn.attr "value").getD "1") else base
        | none => base
      | none => base
    else base
  match findPresentInput page with
  | some i =>
    match i.attr "name" with
    | some n =>
      if n ≠ "" then dictPut withConfirm n ((i.attr "value").getD "1")
      else withConfirm
    | none => withConfirm
  | none => withConfirm

/-- Form action resolution: a falsy action falls back to the fetched URL; a
    non-`http` action is made absolute against `MOODLE_BASE_URL`. -/
def resolveFormAction (action : Option String) (form_url : String) : String :=
  match action with
  | none => form_url
  | some a =>
    if a = "" then form_url
    else if a.startsWith "http" then a
    else if a.startsWith "/" then MOODLE_BASE_URL ++ a
    else MOODLE_BASE_URL ++ "/" ++ a

/-- `success_msgs` of the source. -/
def success_msgs : List String :=
  ["attendance submitted", "successfully recorded", "успешно отмечен",
   "успішно відмічено", "отмечено", "відмічено"]

/-- `error_msgs` of the source. -/
def error_msgs : List String := ["error", "failed", "ошибка", "помилка"]

/-- Interpretation of a 200 POST response body: success markers are scanned
    first, then error markers; with neither, the source assumes success
    (`'Attendance likely marked (no explicit confirmation)'`). -/
def interpretPostResponse (page : Html) : SubmitResult :=
  let page_text := strLower (getText page)
  if success_msgs.any (fun m => strContains page_text m) then
    ⟨"success", "Attendance marked successfully"⟩
  else if error_msgs.any (fun m => strContains page_text m) then
    ⟨"error", "Form submission error detected"⟩
  else
    ⟨"success", "Attendance likely marked (no explicit confirmation)"⟩

/-- External world of `submit_attendance`: login outcome, the GET of the
    form URL, and the POST of the assembled payload to the resolved action. -/
structure SubmitEnv where
  loginSucceeds : Bool
  fetch : String → FetchOutcome
  post : String → List (String × String) → FetchOutcome

/-- `MoodleClient.submit_attendance(form_url)`.  Returns the result dict and
    the number of POST requests issued.

    Control flow of the source: ensure logged in; GET the form URL (non-200
    or exception: `error`); look for a form.  With no form on the page, a URL
    containing both `sessid=` and `sesskey=` is treated as a direct
    attendance link and reported as success with no POST; otherwise `error`.
    With a form, assemble the payload, resolve the action URL and POST; a 200
    response is interpreted by `interpretPostResponse`, anything else is an
    `error`; exceptions anywhere are caught and reported as `error`. -/
def submit_attendance (env : SubmitEnv) (isLoggedIn : Bool) (form_url : String) :
    SubmitResult × Nat :=
  if !isLoggedIn && !env.loginSucceeds then (⟨"error", "Not logged in"⟩, 0)
  else
    match env.fetch form_url with
    | .exn msg => (⟨"error", msg⟩, 0)
    | .ok status page =>
      if status ≠ 200 then (⟨"error", "Failed to load form: " ++ toString status⟩, 0)
      else
        match findAttendanceForm page with
        | none =>
          if strContains form_url "sessid=" && strContains form_url "sesskey=" then
            (⟨"success", "Direct attendance link accessed"⟩, 0)
          else (⟨"error", "Attendance form not found"⟩, 0)
        | some form =>
          let form_data := assembleFormData page form
          let form_action := resolveFormAction (form.attr "action") form_url
          match env.post form_action form_data with
          | .exn msg => (⟨"error", msg⟩, 1)
          | .ok status2 page2 =>
            if status2 = 200 then (interpretPostResponse page2, 1)
            else (⟨"error", "Form submission failed: " ++ toString status2⟩, 1)

/-! ## Schedule parser (`SimpleScheduleParser`, simple_schedule_parser.py)

Python `datetime.date` and `datetime.time` values are embedded as numeric
records with Python's lexicographic comparison. -/

/-- A `datetime.date`. -/
structure PDate where
  year : Nat
  month : Nat
  day : Nat
deriving Repr, DecidableEq

/-- A `datetime.time` (seconds precision; the parsed formats carry no
    microseconds). -/
structure PTime where
  hour : Nat
  minute : Nat
  second : Nat
deriving Repr, DecidableEq

/-- Python `date` ordering (lexicographic). -/
def dateLe (a b : PDate) : Bool :=
  a.year < b.year || (a.year == b.year &&
    (a.month < b.month || (a.month == b.month && a.day ≤ b.day)))

/-- Python `time` ordering (lexicographic). -/
def timeLe (a b : PTime) : Bool :=
  a.hour < b.hour || (a.hour == b.hour &&
    (a.minute < b.minute || (a.minute == b.minute && a.second ≤ b.second)))

/-- Days in a month, Gregorian rules (as validated by `datetime.strptime`). -/
def daysInMonth (y m : Nat) : Nat :=
  if m == 2 then
    if y % 4 == 0 && (y % 100 != 0 || y % 400 == 0) then 29 else 28
  else if m == 4 || m == 6 || m == 9 || m == 11 then 30
  else 31

/-- Is the string non-empty, all digits, and of length at most `maxLen`? -/
def digitsAtMost (maxLen : Nat) (s : String) : Bool :=
  s ≠ "" && s.data.length ≤ maxLen && s.data.all Char.isDigit

/-- `datetime.strptime(s, "%d.%m.%Y").date()`: `None` when parsing raises. -/
def parseDate (s : String) : Option PDate :=
  match s.splitOn "." with
  | [d, m, y] =>
    if digitsAtMost 2 d && digitsAtMost 2 m && digitsAtMost 4 y then
      let dn := d.toNat!; let mn := m.toNat!; let yn := y.toNat!
      if 1 ≤ mn && mn ≤ 12 && 1 ≤ dn && dn ≤ daysInMonth yn mn &&
          1 ≤ yn && yn ≤ 9999 then
        some ⟨yn, mn, dn⟩
      else none
    else none
  | _ => none

/-- `datetime.strptime(s, "%H:%M:%S").time()`: `None` when parsing raises. -/
def parseTime (s : String) : Option PTime :=
  match s.splitOn ":" with
  | [h, m, sec] =>
    if digitsAtMost 2 h && digitsAtMost 2 m && digitsAtMost 2 sec then
      let hn := h.toNat!; let mn := m.toNat!; let sn := sec.toNat!
      if hn ≤ 23 && mn ≤ 59 && sn ≤ 59 then some ⟨hn, mn, sn⟩ else none
    else none
  | _ => none

/-- Match a fixed character-class pattern against a prefix of `l`, returning
    the matched text. -/
def matchFixed : List (Char → Bool) → List Char → Option (List Char)
  | [], _ => some []
  | _ :: _, [] => none
  | p :: ps, c :: cs =>
    if p c then (matchFixed ps cs).map (c :: ·) else none

/-- `re.findall` of a fixed-width pattern: scan left to right, non-overlapping
    matches. -/
def findAllFixed (pat : List (Char → Bool)) : List Char → List String
  | [] => []
  | c :: rest =>
    match matchFixed pat (c :: rest) with
    | some m => String.mk m :: findAllFixed pat (rest.drop (pat.length - 1))
    | none => findAllFixed pat rest
termination_by l => l.length
decreasing_by
  · simp [List.length_drop]; omega
  · simp

/-- `r'(\d{2}\.\d{2}\.\d{4})'`. -/
def datePattern : List (Char → Bool) :=
  [Char.isDigit, Char.isDigit, (· == '.'), Char.isDigit, Char.isDigit,
   (· == '.'), Char.isDigit, Char.isDigit, Char.isDigit, Char.isDigit]

/-- `r'(\d{2}:\d{2}:\d{2})'`. -/
def timePattern : List (Char → Bool) :=
  [Char.isDigit, Char.isDigit, (· == ':'), Char.isDigit, Char.isDigit,
   (· == ':'), Char.isDigit, Char.isDigit]

/-- A parsed schedule entry (`{'date': ..., 'start_time': ..., 'end_time': ...,
    'subject': ...}`). -/
structure SessionEntry where
  date : PDate
  start_time : PTime
  end_time : PTime
  subject : String
deriving Repr, DecidableEq

/-- The regex fallback for one malformed CSV row (simple_schedule_parser.py
    lines 94–129): join the row with commas, extract all dates and times, and
    require at least one date and two times. -/
def parseRowFallback (row : List String) : Option SessionEntry :=
  let line := String.intercalate "," row
  let dates := findAllFixed datePattern line.data
  let times := findAllFixed timePattern line.data
  if dates.isEmpty || times.length < 2 then none
  else
    match parseDate (dates.headD ""), parseTime (times.headD ""),
        parseTime (times.getD 1 "") with
    | some d, some t1, some t2 =>
      let subject :=
        match row with
        | first :: _ =>
          if first ≠ "" then
            (if cleanCell first = "" then "Заняття" else cleanCell first)
          else "Заняття"
        | [] => "Заняття"
      some ⟨d, t1, t2, subject⟩
    | _, _, _ => none

/-- Parse one CSV row (simple_schedule_parser.py lines 67–129): rows with
    fewer than five cells are skipped; the strict `strptime` parse of columns
    1, 2 and 4 is attempted first, falling back to the regex extraction on
    failure. -/
def parseRow (row : List String) : Option SessionEntry :=
  if row.isEmpty || row.length < 5 then none
  else
    let subject := cleanCell (row.headD "")
    let start_date_str := cleanCell (row.getD 1 "")
    let start_time_str := cleanCell (row.getD 2 "")
    let end_time_str := cleanCell (row.getD 4 "")
    match parseDate start_date_str, parseTime start_time_str,
        parseTime end_time_str with
    | some d, some t1, some t2 =>
      some ⟨d, t1, t2, if subject = "" then "Заняття" else subject⟩
    | _, _, _ => parseRowFallback row

/-- Sort key comparison: `key=lambda x: (x['date'], x['start_time'])`. -/
def entryKeyLe (a b : SessionEntry) : Bool :=
  (dateLe a.date b.date && !(dateLe b.date a.date)) ||
  (a.date == b.date && timeLe a.start_time b.start_time)

/-- Strict key comparison derived from `entryKeyLe`. -/
def entryKeyLt (a b : SessionEntry) : Bool :=
  entryKeyLe a b && !entryKeyLe b a

/-- Stable insertion for `list.sort`: `x` goes before the first element whose
    key is not strictly below `x`'s. -/
def sortInsert (x : SessionEntry) : List SessionEntry → List SessionEntry
  | [] => [x]
  | y :: t => if entryKeyLt y x then y :: sortInsert x t else x :: y :: t

/-- Stable sort by `(date, start_time)` (Python `list.sort` is stable;
    stability is irrelevant to the verified claims). -/
def sortSchedule : List SessionEntry → List SessionEntry
  | [] => []
  | x :: t => sortInsert x (sortSchedule t)

/-- `SimpleScheduleParser` state: `self.schedule` and `self.is_loaded`. -/
structure ParserState where
  schedule : List SessionEntry
  isLoaded : Bool
deriving Repr, DecidableEq

/-- `_load_example_data()`: three hard-coded sessions for today/tomorrow. -/
def exampleSchedule (today tomorrow : PDate) : List SessionEntry :=
  [⟨today, ⟨9, 30, 0⟩, ⟨11, 5, 0⟩, "Программирование"⟩,
   ⟨today, ⟨11, 15, 0⟩, ⟨12, 50, 0⟩, "Математика"⟩,
   ⟨tomorrow, ⟨13, 10, 0⟩, ⟨14, 45, 0⟩, "Физика"⟩]

/-- `today + timedelta(days=1)`. -/
def nextDay (d : PDate) : PDate :=
  if d.day < daysInMonth d.year d.month then ⟨d.year, d.month, d.day + 1⟩
  else if d.month < 12 then ⟨d.year, d.month + 1, 1⟩
  else ⟨d.year + 1, 1, 1⟩

/-- External world of `load_schedule`: whether the CSV file exists, the rows
    produced by decoding and `csv.reader` (`none` when every attempted
    encoding raises `UnicodeDecodeError`), and today's Kyiv date (used by the
    example data). -/
structure FileEnv where
  fileExists : Bool
  rows : Option (List (List String))
  today : PDate

/-- Header-row detection (line 64): `any(['Тема' in str(rows[0]), 'Дата' in
    str(rows[0])])` — the Python `str()` of the row list contains the marker
    iff some cell does. -/
def isHeaderRow (row : List String) : Bool :=
  row.any (fun c => strContains c "Тема" || strContains c "Дата")

/-- The schedule contents produced by a successful `load_schedule` run on an
    existing file (lines 33–137): example data when no encoding decodes the
    file; otherwise the header row is skipped, each remaining row is parsed
    with row-level skip-on-error, the example data replaces a zero-row
    result, and a non-empty result is sorted by `(date, start_time)`. -/
def loadedSchedule (env : FileEnv) : List SessionEntry :=
  match env.rows with
  | none => exampleSchedule env.today (nextDay env.today)
  | some rows =>
    let rows := match rows with
      | first :: rest => if isHeaderRow first then rest else first :: rest
      | [] => []
    let schedule := rows.foldr (fun row acc =>
      match parseRow row with
      | some e => e :: acc
      | none => acc) []
    if schedule.isEmpty then exampleSchedule env.today (nextDay env.today)
    else sortSchedule schedule

/-- `SimpleScheduleParser.load_schedule()` (lines 26–147).  A missing file
    returns `False` with the state untouched; every other run rebuilds
    `self.schedule` wholesale via `loadedSchedule`, sets `is_loaded` and
    returns `True`. -/
def load_schedule (env : FileEnv) (p : ParserState) : Bool × ParserState :=
  if !env.fileExists then (false, p)
  else (true, ⟨loadedSchedule env, true⟩)

/-- The first-match scan of `is_class_time` over the loaded schedule
    (lines 190–195). -/
def classTimeScan (schedule : List SessionEntry) (d : PDate) (t : PTime) :
    Bool × Option SessionEntry :=
  match schedule with
  | [] => (false, none)
  | s :: rest =>
    if s.date == d && timeLe s.start_time t && timeLe t s.end_time then
      (true, some s)
    else classTimeScan rest d t

/-- `SimpleScheduleParser.is_class_time(current_time)` (lines 177–195): load
    on demand (a failed load fails open with `(True, None)`), then return the
    first session of the same calendar date whose `[start_time, end_time]`
    interval contains the query time. -/
def is_class_time (env : FileEnv) (p : ParserState) (d : PDate) (t : PTime) :
    Bool × Option SessionEntry :=
  if p.isLoaded then classTimeScan p.schedule d t
  else
    let (ok, p2) := load_schedule env p
    if !ok then (true, none)
    else classTimeScan p2.schedule d t

/-! ## Scheduler gate (`AttendanceScheduler._run_check_attendance_async`,
scheduler/tasks.py lines 104–114)

The periodic check calls `self.schedule_parser.is_class_time(current_time)`
and returns immediately when it is falsy; there is no other time-based
gate (no weekend or clock-band check exists anywhere in the repository). -/

/-- Does one scheduler firing proceed past the time gate?  `True` iff
    `is_class_time` is truthy at the current Kyiv time. -/
def run_check_gate (env : FileEnv) (p : ParserState) (d : PDate) (t : PTime) :
    Bool :=
  (is_class_time env p d t).1

/-- Python `date.weekday()` (Monday = 0 … Sunday = 6), via Zeller's
    congruence; used only to state which calendar dates are Saturdays. -/
def pyWeekday (d : PDate) : Nat :=
  let q := d.day
  let m := if d.month ≤ 2 then d.month + 12 else d.month
  let y := if d.month ≤ 2 then d.year - 1 else d.year
  let k := y % 100
  let j := y / 100
  let h := (q + (13 * (m + 1)) / 5 + k + k / 4 + j / 4 + 5 * j) % 7
  (h + 5) % 7

/-- Strict `time` comparison (used to state "strictly inside"). -/
def timeLt (a b : PTime) : Bool :=
  timeLe a b && a != b

/-! ## Concrete fixtures used to instantiate the theorems -/

/-- A lesson page carrying both a presence-marking submit button and a
    matching free-text phrase inside a link. -/
def pageBtnAndText : Html :=
  .elem "html" [] [
    .elem "body" [] [
      .elem "input" [("type", "submit"), ("value", "Submit attendance")] [],
      .elem "p" [] [
        .elem "a" [("href", "http://x/att")] [.txt "mark attendance here"]]]]

/-- A lesson page whose only affordance is a matching free-text phrase near a
    link: no submit button, no anchor whose `.string` matches (the anchor has
    two children, so its `.string` is `None`), no classed section. -/
def pageFreeTextOnly : Html :=
  .elem "html" [] [
    .elem "body" [] [
      .elem "p" [] [
        .elem "a" [("href", "http://dl/att2")] [
          .elem "span" [] [.txt "mark attendance"], .txt " now"]]]]

/-- An attendance form whose radio group gives the *Absent* choice value
    `"1"` and the *Present* choice value `"2"`, each with a label. -/
def formAbsent1 : Html :=
  .elem "form" [("action", "/mod/attendance/attendance.php")] [
    .elem "input" [("type", "hidden"), ("name", "sesskey"), ("value", "K")] [],
    .elem "input" [("type", "radio"), ("name", "status"), ("value", "1"),
      ("id", "r1")] [],
    .elem "label" [("for", "r1")] [.txt "Absent"],
    .elem "input" [("type", "radio"), ("name", "status"), ("value", "2"),
      ("id", "r2")] [],
    .elem "label" [("for", "r2")] [.txt "Present"],
    .elem "input" [("type", "radio"), ("name", "status"), ("value", "3"),
      ("id", "r3")] [],
    .elem "label" [("for", "r3")] [.txt "Late"]]

/-- The page wrapping `formAbsent1`. -/
def pageAbsent1 : Html :=
  .elem "html" [] [.elem "body" [] [formAbsent1]]

/-- A client state with one cached `not_available` entry written at t = 100. -/
def stCached : ClientState :=
  ⟨true, [("http://dl/lesson", .notAvailable "No attendance marking option found", 100)]⟩

/-- A network environment whose every GET yields the free-text-only page. -/
def envFreeText : CheckEnv :=
  ⟨true, fun _ => .ok 200 pageFreeTextOnly⟩

/-- A network environment whose every GET raises a connection error. -/
def envExn : CheckEnv :=
  ⟨true, fun _ => .exn "Connection refused"⟩

/-- A login environment whose GET of the login page raises. -/
def loginEnvExn : LoginEnv :=
  ⟨.inl "Connection refused", .inl "Connection refused"⟩

/-- A submit environment: the form URL serves `pageAbsent1`; the POST returns
    a 200 page whose text carries neither success nor error vocabulary. -/
def submitEnvNeutral : SubmitEnv :=
  ⟨true, fun _ => .ok 200 pageAbsent1,
   fun _ _ => .ok 200 (.elem "html" [] [.txt "all is well"])⟩

/-- A submit environment whose POST response carries the Ukrainian success
    marker. -/
def submitEnvSuccess : SubmitEnv :=
  ⟨true, fun _ => .ok 200 pageAbsent1,
   fun _ _ => .ok 200 (.elem "html" [] [.txt "Вашу присутність успішно відмічено"])⟩

/-- A submit environment serving a page with no form at all. -/
def submitEnvNoForm : SubmitEnv :=
  ⟨true, fun _ => .ok 200 (.elem "html" [] [.elem "body" [] [.txt "done"]]),
   fun _ _ => .ok 200 (.elem "html" [] [.txt "x"])⟩

/-- A direct attendance link carrying both authenticity parameters. -/
def directUrl : String := "http://dl/att?sessid=a&sesskey=b"

/-- A loaded parser whose only session is on Saturday 2025-06-14,
    09:30–11:05. -/
def satParser : ParserState :=
  ⟨[⟨⟨2025, 6, 14⟩, ⟨9, 30, 0⟩, ⟨11, 5, 0⟩, "Математика"⟩], true⟩

/-- An arbitrary file environment (irrelevant once the parser is loaded). -/
def trivFileEnv : FileEnv :=
  ⟨true, some [], ⟨2025, 1, 1⟩⟩

/-- A file environment whose CSV file does not exist. -/
def envMissingFile : FileEnv :=
  ⟨false, none, ⟨2025, 6, 13⟩⟩

/-- A file environment with one well-formed data row under a header row. -/
def envOneRow : FileEnv :=
  ⟨true,
   some [["Тема", "Дата початку", "Час початку", "Дата завершення", "Час завершення"],
         ["Математика", "14.06.2025", "09:30:00", "14.06.2025", "11:05:00"]],
   ⟨2025, 6, 13⟩⟩

/-! ## Helper lemmas -/

/-- The heuristic scan of a fetched page only ever produces `available` or
    `not_available`, never an `error` dict. -/
theorem scanLessonPage_not_isError (page : Html) :
    (scanLessonPage page).isError = false := by
  unfold scanLessonPage
  cases hA : (if (findAttendanceBtn page).isNone = true then exactLinkScan page
      else none) with
  | some u => simp [hA, CheckResult.isError]
  | none =>
  cases hB : (if (findAttendanceBtn page).isNone = true then regexLinkScan page
      else none) with
  | some u => simp [hA, hB, CheckResult.isError]
  | none =>
  cases hC : freeTextScan page with
  | some u => simp [hA, hB, hC, CheckResult.isError]
  | none =>
  cases hD : sectionScan page with
  | some a => simp [hA, hB, hC, hD, CheckResult.isError]
  | none =>
  cases hE : (findAttendanceBtn page).isSome <;>
    simp [hA, hB, hC, hD, hE, CheckResult.isError]

/-- `dictGet` after `dictPut` at the same key. -/
theorem dictGet_dictPut (d : List (String × String)) (k v : String) :
    dictGet (dictPut d k v) k = some v := by
  induction d with
  | nil => simp [dictPut, dictGet, List.find?]
  | cons e rest ih =>
    by_cases h : e.1 = k
    · simp [dictPut, dictGet, h, List.find?]
    · have hb : (e.1 == k) = false := by simp [h]
      simp only [dictPut, hb, if_false, Bool.false_eq_true]
      simpa [dictGet, List.find?, hb] using ih

/-- The condition tested by `classTimeScan` on one session. -/
def sessionCovers (s : SessionEntry) (d : PDate) (t : PTime) : Bool :=
  s.date == d && timeLe s.start_time t && timeLe t s.end_time

/-- `classTimeScan` unfolded through `sessionCovers`. -/
theorem classTimeScan_cons (x : SessionEntry) (rest : List SessionEntry)
    (d : PDate) (t : PTime) :
    classTimeScan (x :: rest) d t =
      if sessionCovers x d t then (true, some x) else classTimeScan rest d t := by
  simp [classTimeScan, sessionCovers]

/-- `sessionCovers` in propositional form. -/
theorem sessionCovers_iff (s : SessionEntry) (d : PDate) (t : PTime) :
    sessionCovers s d t = true ↔
      s.date = d ∧ timeLe s.start_time t = true ∧ timeLe t s.end_time = true := by
  simp [sessionCovers, Bool.and_eq_true, and_assoc]

/-- The first-match scan succeeds when some session matches. -/
theorem classTimeScan_pos (l : List SessionEntry) (d : PDate) (t : PTime)
    (h : ∃ s ∈ l, s.date = d ∧ timeLe s.start_time t = true ∧
      timeLe t s.end_time = true) :
    ∃ s', classTimeScan l d t = (true, some s') ∧ s' ∈ l ∧ s'.date = d ∧
      timeLe s'.start_time t = true ∧ timeLe t s'.end_time = true := by
  induction l with
  | nil => simp at h
  | cons x rest ih =>
    rw [classTimeScan_cons]
    cases hx : sessionCovers x d t with
    | true =>
      obtain ⟨hd, h1, h2⟩ := (sessionCovers_iff x d t).mp hx
      exact ⟨x, by simp, List.mem_cons_self .., hd, h1, h2⟩
    | false =>
      obtain ⟨s, hs, hsd, hs1, hs2⟩ := h
      rcases List.mem_cons.mp hs with heq | hmem
      · exact absurd ((sessionCovers_iff x d t).mpr (heq ▸ ⟨hsd, hs1, hs2⟩))
          (by simp [hx])
      · obtain ⟨s', h1, h2, h3⟩ := ih ⟨s, hmem, hsd, hs1, hs2⟩
        exact ⟨s', by simp [h1], List.mem_cons_of_mem _ h2, h3⟩

/-- The first-match scan fails when no session matches. -/
theorem classTimeScan_neg (l : List SessionEntry) (d : PDate) (t : PTime)
    (h : ∀ s ∈ l, s.date = d →
      ¬(timeLe s.start_time t = true ∧ timeLe t s.end_time = true)) :
    classTimeScan l d t = (false, none) := by
  induction l with
  | nil => simp [classTimeScan]
  | cons x rest ih =>
    rw [classTimeScan_cons]
    have hx : sessionCovers x d t = false := by
      cases hc : sessionCovers x d t with
      | false => rfl
      | true =>
        obtain ⟨hd, h1, h2⟩ := (sessionCovers_iff x d t).mp hc
        exact absurd ⟨h1, h2⟩ (h x (List.mem_cons_self ..) hd)
    rw [hx]
    simp only [Bool.false_eq_true, if_false]
    exact ih (fun s hs => h s (List.mem_cons_of_mem _ hs))

/-- `(classTimeScan l d t).1` decides the existence of a covering session. -/
theorem classTimeScan_fst_iff (l : List SessionEntry) (d : PDate) (t : PTime) :
    (classTimeScan l d t).1 = true ↔
      ∃ s ∈ l, s.date = d ∧ timeLe s.start_time t = true ∧
        timeLe t s.end_time = true := by
  constructor
  · intro h
    induction l with
    | nil => simp [classTimeScan] at h
    | cons x rest ih =>
      rw [classTimeScan_cons] at h
      cases hx : sessionCovers x d t with
      | true =>
        obtain ⟨hd, h1, h2⟩ := (sessionCovers_iff x d t).mp hx
        exact ⟨x, List.mem_cons_self .., hd, h1, h2⟩
      | false =>
        rw [hx] at h
        simp only [Bool.false_eq_true, if_false] at h
        obtain ⟨s, hs, hrest⟩ := ih h
        exact ⟨s, List.mem_cons_of_mem _ hs, hrest⟩
  · intro h
    obtain ⟨s', heq, _⟩ := classTimeScan_pos l d t h
    simp [heq]

/-- `sortInsert` never produces the empty list. -/
theorem sortInsert_ne_nil (x : SessionEntry) (l : List SessionEntry) :
    sortInsert x l ≠ [] := by
  cases l with
  | nil => simp [sortInsert]
  | cons y t => simp only [sortInsert]; split <;> simp

/-- Sorting preserves non-emptiness. -/
theorem sortSchedule_ne_nil (x : SessionEntry) (l : List SessionEntry) :
    sortSchedule (x :: l) ≠ [] := by
  simp only [sortSchedule]; exact sortInsert_ne_nil x (sortSchedule l)

/-- Strict time order implies the inclusive order used by the source. -/
theorem timeLt_le {a b : PTime} (h : timeLt a b = true) : timeLe a b = true := by
  simp only [timeLt, Bool.and_eq_true] at h
  exact h.1

/-- On the fresh path an `error` outcome leaves the cache untouched. -/
theorem check_attendance_fresh_error_cache (env : CheckEnv) (st : ClientState)
    (now : Int) (url : String)
    (h : (check_attendance_fresh env st now url).1.isError = true) :
    (check_attendance_fresh env st now url).2.1.attendanceCache =
      st.attendanceCache := by
  unfold check_attendance_fresh at *
  by_cases hl : st.isLoggedIn <;> simp only [hl, if_true, if_false] at * <;>
    [skip; by_cases ho : env.loginSucceeds] <;>
    simp_all <;>
    cases hf : env.fetch url <;> simp_all <;>
    split <;> simp_all [scanLessonPage_not_isError]

/-- On the fresh path with a logged-in client exactly one network operation
    (the lesson-page GET) is performed. -/
theorem check_attendance_fresh_count (env : CheckEnv) (st : ClientState)
    (now : Int) (url : String) (hl : st.isLoggedIn = true) :
    (check_attendance_fresh env st now url).2.2 = 1 := by
  unfold check_attendance_fresh
  simp only [hl, if_true]
  cases hf : env.fetch url <;> simp [hf] <;> split <;> simp

/-! ## Claim theorems -/

/-- C3: for every lesson URL, `check_attendance` consults the result cache
    first: an entry written less than 300 seconds ago is returned as stored
    with zero network operations (no login, no page GET, state untouched),
    while an entry at least 300 seconds old is ignored, so that (for a
    logged-in client) a fresh page fetch — exactly one network operation —
    is performed. -/
theorem check_attendance_cache_ttl (env : CheckEnv) (st : ClientState)
    (now last : Int) (url : String) (res : CheckResult)
    (h : cacheLookup st.attendanceCache url = some (res, last)) :
    (now - last < 300 → check_attendance env st now url = (res, st, 0)) ∧
    (300 ≤ now - last → st.isLoggedIn = true →
      (check_attendance env st now url).2.2 = 1) := by
  constructor
  · intro hfresh
    unfold check_attendance
    rw [h]; dsimp only
    rw [if_pos (show now - last < cache_ttl by simpa [cache_ttl] using hfresh)]
  · intro hstale hlog
    unfold check_attendance
    rw [h]; dsimp only
    rw [if_neg (show ¬(now - last < cache_ttl) by simp only [cache_ttl]; omega)]
    exact check_attendance_fresh_count env st now url hlog

/-- C3 witness: with a `not_available` entry cached at t = 100, a query at
    t = 160 replays the cached dict with zero network operations, and a query
    at t = 500 performs exactly one fresh fetch. -/
theorem check_attendance_cache_ttl_witness :
    check_attendance envFreeText stCached 160 "http://dl/lesson" =
      (.notAvailable "No attendance marking option found", stCached, 0) ∧
    (check_attendance envFreeText stCached 500 "http://dl/lesson").2.2 = 1 :=
  ⟨(check_attendance_cache_ttl envFreeText stCached 160 100 "http://dl/lesson"
      (.notAvailable "No attendance marking option found") rfl).1 (by decide),
   (check_attendance_cache_ttl envFreeText stCached 500 100 "http://dl/lesson"
      (.notAvailable "No attendance marking option found") rfl).2 (by decide) rfl⟩

/-- C10: every `error` outcome of `check_attendance` (not logged in, failed
    page load, raised exception — or an error dict replayed from a prior
    cache state) leaves the attendance cache exactly as it was; only
    `available`/`not_available` results are ever written through. -/
theorem check_attendance_error_cache_untouched (env : CheckEnv)
    (st : ClientState) (now : Int) (url : String)
    (h : (check_attendance env st now url).1.isError = true) :
    (check_attendance env st now url).2.1.attendanceCache =
      st.attendanceCache := by
  unfold check_attendance at *
  cases hc : cacheLookup st.attendanceCache url with
  | some v =>
    obtain ⟨res, last⟩ := v
    rw [hc] at h
    dsimp only at h ⊢
    by_cases hf : now - last < cache_ttl
    · rw [if_pos hf]
    · rw [if_neg hf] at h ⊢
      exact check_attendance_fresh_error_cache env st now url h
  | none =>
    rw [hc] at h
    dsimp only at h ⊢
    exact check_attendance_fresh_error_cache env st now url h

/-- C10 witness: a fetch that raises leaves the prior cache entry intact. -/
theorem check_attendance_error_cache_untouched_witness :
    (check_attendance envExn stCached 500 "http://dl/lesson").2.1.attendanceCache =
      stCached.attendanceCache :=
  check_attendance_error_cache_untouched envExn stCached 500 "http://dl/lesson" rfl

/-- C7: `login` returns `False` with zero network calls whenever the username
    or the password is absent (Python-falsy), and converts a raised exception
    at either network call (login-page GET or credential POST) into a `False`
    return — it never propagates an exception. -/
theorem login_failure_semantics (env : LoginEnv) (u p : Option String) :
    ((truthy u = false ∨ truthy p = false) → login env u p = (false, 0)) ∧
    (∀ m, env.getLoginPage = .inl m → (login env u p).1 = false) ∧
    (∀ m, env.postCredentials = .inl m → (login env u p).1 = false) := by
  refine ⟨fun hcred => ?_, fun m hm => ?_, fun m hm => ?_⟩
  · unfold login
    rcases hcred with h | h <;> simp [h]
  · unfold login
    repeat' split
    all_goals try rfl
    all_goals simp_all
  · unfold login
    repeat' split
    all_goals try rfl
    all_goals simp_all

/-- C7 witness: login with a missing password makes no network call, and
    login against a raising network environment returns `False`. -/
theorem login_failure_semantics_witness :
    login loginEnvExn (some "user") none = (false, 0) ∧
    (login loginEnvExn (some "user") (some "pw")).1 = false :=
  ⟨(login_failure_semantics loginEnvExn (some "user") none).1 (Or.inr rfl),
   (login_failure_semantics loginEnvExn (some "user") (some "pw")).2.1
      "Connection refused" rfl⟩

/-- Every successful load yields a non-empty schedule. -/
theorem loadedSchedule_ne_nil (env : FileEnv) : loadedSchedule env ≠ [] := by
  unfold loadedSchedule
  cases env.rows with
  | none => simp [exampleSchedule]
  | some rows =>
    dsimp only
    cases hsch : ((match rows with
        | first :: rest => if isHeaderRow first then rest else first :: rest
        | [] => []).foldr (fun row acc =>
          match parseRow row with
          | some e => e :: acc
          | none => acc) []) with
    | nil => simp [hsch, exampleSchedule]
    | cons x t =>
      simp only [List.isEmpty_cons, Bool.false_eq_true, if_false]
      exact sortSchedule_ne_nil x t

/-- C6: with a loaded schedule, a query time strictly inside
    `[start_time, end_time]` of some session on the query's calendar date
    makes `is_class_time` return `(True, s)` for a session `s` of that date
    covering the time, and a query time outside every session of that date
    makes it return `(False, None)`. -/
theorem is_class_time_spec (env : FileEnv) (p : ParserState) (d : PDate)
    (t : PTime) (hl : p.isLoaded = true) :
    ((∃ s ∈ p.schedule, s.date = d ∧ timeLt s.start_time t = true ∧
        timeLt t s.end_time = true) →
      ∃ s', is_class_time env p d t = (true, some s') ∧ s' ∈ p.schedule ∧
        s'.date = d ∧ timeLe s'.start_time t = true ∧
        timeLe t s'.end_time = true) ∧
    ((∀ s ∈ p.schedule, s.date = d →
        ¬(timeLe s.start_time t = true ∧ timeLe t s.end_time = true)) →
      is_class_time env p d t = (false, none)) := by
  have hrw : is_class_time env p d t = classTimeScan p.schedule d t := by
    simp [is_class_time, hl]
  constructor
  · rintro ⟨s, hs, hd, h1, h2⟩
    rw [hrw]
    exact classTimeScan_pos _ d t ⟨s, hs, hd, timeLt_le h1, timeLt_le h2⟩
  · intro hnone
    rw [hrw]
    exact classTimeScan_neg _ d t hnone

/-- C6 witness: 10:00 lies strictly inside the 09:30–11:05 session of
    2025-06-14, so the scan reports it; 12:00 lies outside every session of
    that date, so the scan reports `(False, None)`. -/
theorem is_class_time_spec_witness :
    (∃ s', is_class_time trivFileEnv satParser ⟨2025, 6, 14⟩ ⟨10, 0, 0⟩ =
        (true, some s') ∧ s' ∈ satParser.schedule ∧ s'.date = ⟨2025, 6, 14⟩ ∧
        timeLe s'.start_time ⟨10, 0, 0⟩ = true ∧
        timeLe ⟨10, 0, 0⟩ s'.end_time = true) ∧
    is_class_time trivFileEnv satParser ⟨2025, 6, 14⟩ ⟨12, 0, 0⟩ =
      (false, none) :=
  ⟨(is_class_time_spec trivFileEnv satParser ⟨2025, 6, 14⟩ ⟨10, 0, 0⟩ rfl).1
      ⟨⟨⟨2025, 6, 14⟩, ⟨9, 30, 0⟩, ⟨11, 5, 0⟩, "Математика"⟩,
        by simp [satParser], rfl, by decide, by decide⟩,
   (is_class_time_spec trivFileEnv satParser ⟨2025, 6, 14⟩ ⟨12, 0, 0⟩ rfl).2
      (by decide)⟩

/-- C9 counterexample: the repository has no weekend/clock-band
    `is_working_window` gate; the only gate in front of the periodic check
    (`_run_check_attendance_async`) is `is_class_time`, and on Saturday
    2025-06-14 at 10:00 with a loaded session covering that time the gate is
    open — not `False` regardless of schedule content as claimed. -/
theorem run_check_gate_saturday_counterexample :
    pyWeekday ⟨2025, 6, 14⟩ = 5 ∧
    run_check_gate trivFileEnv satParser ⟨2025, 6, 14⟩ ⟨10, 0, 0⟩ = true :=
  ⟨by decide, by decide⟩

/-- C9 amended: the periodic check's only time gate is schedule-content
    based — with a loaded parser it proceeds at time `t` on date `d` exactly
    when some loaded session of date `d` covers `t`, with no weekday or
    clock-band filtering. -/
theorem run_check_gate_spec (env : FileEnv) (p : ParserState) (d : PDate)
    (t : PTime) (hl : p.isLoaded = true) :
    run_check_gate env p d t = true ↔
      ∃ s ∈ p.schedule, s.date = d ∧ timeLe s.start_time t = true ∧
        timeLe t s.end_time = true := by
  unfold run_check_gate
  have hrw : is_class_time env p d t = classTimeScan p.schedule d t := by
    simp [is_class_time, hl]
  rw [hrw]
  exact classTimeScan_fst_iff _ d t

/-- C9 amended witness: the gate opens at 09:30 on 2025-06-14 because the
    loaded session covers it. -/
theorem run_check_gate_spec_witness :
    run_check_gate trivFileEnv satParser ⟨2025, 6, 14⟩ ⟨9, 30, 0⟩ = true :=
  (run_check_gate_spec trivFileEnv satParser ⟨2025, 6, 14⟩ ⟨9, 30, 0⟩ rfl).2
    ⟨⟨⟨2025, 6, 14⟩, ⟨9, 30, 0⟩, ⟨11, 5, 0⟩, "Математика"⟩,
      by simp [satParser], rfl, by decide, by decide⟩

/-- C5 counterexample: `load_schedule` on a missing file returns `False` and
    leaves the gate unloaded with an empty schedule — not `Loaded` with a
    non-empty schedule as claimed. -/
theorem load_schedule_missing_file_counterexample :
    (load_schedule envMissingFile ⟨[], false⟩).1 = false ∧
    (load_schedule envMissingFile ⟨[], false⟩).2.isLoaded = false ∧
    (load_schedule envMissingFile ⟨[], false⟩).2.schedule = [] :=
  ⟨rfl, rfl, rfl⟩

/-- C5 amended: for every *existing* input file — undecodable files and
    files with zero parseable rows included — `load_schedule` returns `True`
    and leaves the gate `Loaded` with a non-empty schedule (example data when
    nothing parses), and the loaded contents replace the prior state
    wholesale (they are independent of it); a missing file instead returns
    `False` leaving the state untouched. -/
theorem load_schedule_existing_file_loaded (env : FileEnv) (p q : ParserState)
    (h : env.fileExists = true) :
    (load_schedule env p).1 = true ∧
    (load_schedule env p).2.isLoaded = true ∧
    (load_schedule env p).2.schedule ≠ [] ∧
    (load_schedule env p).2 = (load_schedule env q).2 := by
  unfold load_schedule
  rw [h]
  exact ⟨rfl, rfl, loadedSchedule_ne_nil env, rfl⟩

/-- C5 amended witness: loading a one-row CSV under a header succeeds with
    the parsed session, independently of the prior parser state. -/
theorem load_schedule_existing_file_loaded_witness :
    (load_schedule envOneRow ⟨[], false⟩).1 = true ∧
    (load_schedule envOneRow ⟨[], false⟩).2.isLoaded = true ∧
    (load_schedule envOneRow ⟨[], false⟩).2.schedule ≠ [] ∧
    (load_schedule envOneRow ⟨[], false⟩).2 =
      (load_schedule envOneRow satParser).2 :=
  load_schedule_existing_file_loaded envOneRow ⟨[], false⟩ satParser rfl

/-- C1 counterexample: on a page carrying both a matching submit-style button
    (heuristic (a)) and a matching free-text phrase inside a link (heuristic
    (c)), detection returns the free-text link's URL, not the button
    descriptor.  In the source a found button merely suppresses the two
    anchor scans; the free-text and classed-section scans still run — and
    return — before the button result does, so the claimed
    button-anchor-text-section priority does not hold. -/
theorem scanLessonPage_order_counterexample :
    (findAttendanceBtn pageBtnAndText).isSome = true ∧
    scanLessonPage pageBtnAndText = .available (.formUrl "http://x/att") ∧
    scanLessonPage pageBtnAndText ≠ .available .buttonFound :=
  ⟨rfl, rfl, by decide⟩

/-- C1 amended: the realised return order is exact-anchor, regex-anchor
    (both only when no presence button matched), free-text-with-nearest-
    enclosing-link, classed-section-with-form, and only then the button.
    In particular a page whose free-text heuristic finds a phrase with an
    enclosing truthy-`href` anchor yields `Available` with that link's URL
    both when the earlier heuristics all fail (the claim's scenario) and
    even when the button heuristic matched. -/
theorem scanLessonPage_fallback_order (page : Html) (u : String)
    (h4 : freeTextScan page = some u) :
    (findAttendanceBtn page = none → exactLinkScan page = none →
      regexLinkScan page = none →
      scanLessonPage page = .available (.formUrl u)) ∧
    ((findAttendanceBtn page).isSome = true →
      scanLessonPage page = .available (.formUrl u)) := by
  constructor
  · intro h1 h2 h3
    unfold scanLessonPage
    rw [h1]
    simp only [Option.isNone_none, if_true, h2, h3, h4]
  · intro h1
    unfold scanLessonPage
    have hne : (findAttendanceBtn page).isNone = false := by
      cases hb : findAttendanceBtn page with
      | none => rw [hb] at h1; simp at h1
      | some b => simp
    simp only [hne, Bool.false_eq_true, if_false, h4]

/-- C1 witness: on the page whose only affordance is the free-text phrase
    near a link, detection yields `Available` with that link's URL. -/
theorem scanLessonPage_fallback_order_witness :
    scanLessonPage pageFreeTextOnly = .available (.formUrl "http://dl/att2") :=
  (scanLessonPage_fallback_order pageFreeTextOnly "http://dl/att2" rfl).1
    rfl rfl rfl

/-- C4 counterexample: in `formAbsent1` the radio labeled "Absent" has value
    `"1"` and the radio labeled "Present" has value `"2"`; the assembled
    payload submits `status=1` — the *Absent* value — because the probe
    matches on `value == '1'`, never on label text. -/
theorem assembleFormData_label_counterexample :
    assembleFormData pageAbsent1 formAbsent1 =
      [("sesskey", "K"), ("status", "1")] ∧
    dictGet (assembleFormData pageAbsent1 formAbsent1) "status" ≠ some "2" :=
  ⟨rfl, by decide⟩

/-- C4 amended: the submitter never consults label text.  It probes for an
    input whose `name` contains `status` with `value` exactly `"1"`, else
    the first radio whose `value` contains `"1"` or `"present"`
    (case-insensitively), and overwrites the payload entry for that input's
    name with that input's value; only under the Moodle convention that the
    Present choice carries value `"1"` does this select Present. -/
theorem assembleFormData_present_probe (page form inp : Html) (n v : String)
    (hp : findPresentInput page = some inp)
    (hn : inp.attr "name" = some n) (hne : n ≠ "")
    (hv : inp.attr "value" = some v) :
    dictGet (assembleFormData page form) n = some v := by
  unfold assembleFormData
  rw [hp]
  dsimp only
  rw [hn]
  dsimp only
  rw [if_pos hne, hv]
  exact dictGet_dictPut _ n v

/-- C4 witness: on `pageAbsent1` the probe finds the `status`-named,
    value-`"1"` radio, and the payload maps `status` to `"1"`. -/
theorem assembleFormData_present_probe_witness :
    dictGet (assembleFormData pageAbsent1 formAbsent1) "status" = some "1" :=
  assembleFormData_present_probe pageAbsent1 formAbsent1
    (.elem "input" [("type", "radio"), ("name", "status"), ("value", "1"),
      ("id", "r1")] [])
    "status" "1" rfl rfl (by decide) rfl

/-- C2 counterexample: a 200 POST response containing neither success nor
    error vocabulary produces the dict
    `{'status': 'success', 'message': 'Attendance likely marked (no explicit
    confirmation)'}` — the source's outcome vocabulary has no `Unknown`
    variant; the ambiguous case is reported as *Success* with a
    distinguishing message, not as `Unknown`. -/
theorem submit_neither_marker_counterexample :
    submit_attendance submitEnvNeutral true "http://dl/form" =
      (⟨"success", "Attendance likely marked (no explicit confirmation)"⟩, 1) :=
  rfl

/-- C2 amended: for every form submission whose POST returns HTTP 200, a
    body containing a success marker yields `success`/"Attendance marked
    successfully"; a body with no success marker but an error marker yields
    `error`; and a body with neither yields `success` with the
    "likely marked (no explicit confirmation)" message (not `error`). -/
theorem submit_response_interpretation (env : SubmitEnv) (url : String)
    (page page2 form : Html)
    (hf : env.fetch url = .ok 200 page)
    (hform : findAttendanceForm page = some form)
    (hpost : env.post (resolveFormAction (form.attr "action") url)
        (assembleFormData page form) = .ok 200 page2) :
    (success_msgs.any (fun m => strContains (strLower (getText page2)) m) = true →
      submit_attendance env true url =
        (⟨"success", "Attendance marked successfully"⟩, 1)) ∧
    (success_msgs.any (fun m => strContains (strLower (getText page2)) m) = false →
      error_msgs.any (fun m => strContains (strLower (getText page2)) m) = true →
      submit_attendance env true url =
        (⟨"error", "Form submission error detected"⟩, 1)) ∧
    (success_msgs.any (fun m => strContains (strLower (getText page2)) m) = false →
      error_msgs.any (fun m => strContains (strLower (getText page2)) m) = false →
      submit_attendance env true url =
        (⟨"success", "Attendance likely marked (no explicit confirmation)"⟩, 1)) := by
  have hsub : submit_attendance env true url = (interpretPostResponse page2, 1) := by
    unfold submit_attendance
    rw [hf]
    simp only [Bool.not_true, Bool.false_and, Bool.false_eq_true, if_false]
    rw [hform]
    dsimp only
    rw [hpost]
    simp
  refine ⟨fun hs => ?_, fun hs he => ?_, fun hs he => ?_⟩ <;>
    rw [hsub] <;> unfold interpretPostResponse
  · rw [if_pos hs]
  · rw [if_neg (by simp [hs]), if_pos he]
  · rw [if_neg (by simp [hs]), if_neg (by simp [he])]

/-- C2 witness: a POST response body containing "успішно відмічено" yields
    the explicit-success outcome. -/
theorem submit_response_interpretation_witness :
    submit_attendance submitEnvSuccess true "http://dl/form" =
      (⟨"success", "Attendance marked successfully"⟩, 1) :=
  (submit_response_interpretation submitEnvSuccess "http://dl/form"
    pageAbsent1 (.elem "html" [] [.txt "Вашу присутність успішно відмічено"])
    formAbsent1 rfl rfl rfl).1 (by decide)

/-- C8 counterexample: a form URL carrying both `sessid=` and `sesskey=`
    whose fetched page contains a form is *not* treated as a direct
    submission: the source still assembles the payload and issues one POST
    (POST count 1), contradicting "returns Success without issuing a further
    POST" for every such URL. -/
theorem submit_direct_link_posts_counterexample :
    strContains directUrl "sessid=" = true ∧
    strContains directUrl "sesskey=" = true ∧
    (submit_attendance submitEnvNeutral true directUrl).2 = 1 :=
  ⟨rfl, rfl, rfl⟩

/-- C8 amended: the direct-link shortcut applies only when the fetched page
    contains *no* form: then a URL carrying both `sessid=` and `sesskey=`
    is reported as `success`/"Direct attendance link accessed" with zero
    POSTs. -/
theorem submit_direct_link_shortcut (env : SubmitEnv) (url : String)
    (page : Html)
    (hf : env.fetch url = .ok 200 page)
    (hnoform : findAttendanceForm page = none)
    (h1 : strContains url "sessid=" = true)
    (h2 : strContains url "sesskey=" = true) :
    submit_attendance env true url =
      (⟨"success", "Direct attendance link accessed"⟩, 0) := by
  unfold submit_attendance
  rw [hf]
  simp only [Bool.not_true, Bool.false_and, Bool.false_eq_true, if_false]
  rw [hnoform]
  dsimp only
  rw [h1, h2]
  simp

/-- C8 witness: fetching a form-free page through a URL with both
    authenticity parameters reports the direct-link success without a POST. -/
theorem submit_direct_link_shortcut_witness :
    submit_attendance submitEnvNoForm true directUrl =
      (⟨"success", "Direct attendance link accessed"⟩, 0) :=
  submit_direct_link_shortcut submitEnvNoForm directUrl
    (.elem "html" [] [.elem "body" [] [.txt "done"]]) rfl rfl rfl rfl

end TgBot
